import Mathlib

/-!
# BehaVer — verification of the elaboration-and-parse pipeline and sample models

This file gives a shallow embedding of the BehaVer repository:

* `src/code/ast_gen.cpp` — the driver that invokes the external elaborator
  (Verilator) through `std::system` on a concatenated command string and then
  loads the emitted XML with TinyXML-2;
* `src/samples/counter8/obj_dir/Vcounter8___024root__DepSet_h70dba616__0.cpp` —
  the Verilator-generated cycle model of the `counter8` sample (the sequential
  update function and the convergence loops of `..._eval`);
* a model of the `DesignTreeBuilder` stage, which exists only in the design
  document (no source under `src/` builds a typed design tree), written from
  the document's §4.4 wording.

External effects (the result of `std::system`, the result of
`tinyxml2::XMLDocument::LoadFile`, the elaborator's stderr stream, file
existence) are oracles packaged in a `World` record; the driver is a pure
function of the `World` that also returns the ordered trace of the effects it
performed.
-/

/-! ## Part 1 — the Verilator-generated counter8 model

From `Vcounter8___024root__DepSet_h70dba616__0.cpp`.  `CData` fields are
machine bytes; we embed them as `Nat` and keep the source's explicit `0xff`
mask.
-/

/-- The relevant state of `Vcounter8___024root`: the `clk`, `rst_n` and `out`
fields (all `CData` in the generated header). -/
structure Vcounter8Root where
  clk : Nat
  rst_n : Nat
  out : Nat
deriving DecidableEq, Repr

/-- `Vcounter8___024root___nba_sequent__TOP__0`:
`out = rst_n ? (0xffU & (1U + out)) : 0U`. -/
def nbaSequentTop0 (s : Vcounter8Root) : Vcounter8Root :=
  { s with out := if s.rst_n ≠ 0 then 0xff &&& (1 + s.out) else 0 }

/-- Outcome of one Verilator convergence loop: either it converged, or the
`VL_FATAL_MT` "did not converge" abort fired.  `entries` counts how many times
the loop body was entered (the aborting entry included). -/
inductive RegionOutcome where
  | converged (entries : Nat)
  | diverged (entries : Nat)
deriving DecidableEq, Repr

/-- Number of body entries recorded in a `RegionOutcome`. -/
def RegionOutcome.entries : RegionOutcome → Nat
  | .converged n => n
  | .diverged n => n

/-- One Verilator convergence loop (the shape of both the active-region loop
and the NBA loop in `Vcounter8___024root___eval`): entered with iteration
counter `count`, it aborts when `100 < count`, otherwise increments the
counter, runs the phase function (the oracle `phase`, indexed by the counter
value at entry), and loops again exactly when the phase reports activity. -/
def regionLoop (phase : Nat → Bool) (count : Nat) : RegionOutcome :=
  if 100 < count then .diverged (count + 1)
  else if phase count then regionLoop phase (count + 1)
  else .converged (count + 1)
termination_by 101 - count
decreasing_by omega

/-- Outcome of `Vcounter8___024root___eval`: body-entry count of the outer NBA
loop, the body-entry counts of the inner active-region loop for each outer
pass, and whether a `VL_FATAL_MT` abort fired. -/
structure EvalOutcome where
  outerEntries : Nat
  innerEntries : List Nat
  fatal : Bool
deriving DecidableEq, Repr

/-- The nested loops of `Vcounter8___024root___eval`.  `act o i` is the result
of `Vcounter8___024root___eval_phase__act` at outer pass `o`, inner iteration
`i`; `nba o` is the result of `Vcounter8___024root___eval_phase__nba` at outer
pass `o`.  Each outer body entry checks `100 < __VnbaIterCount` (aborting on
overflow), increments it, reruns the inner active-region loop from a zeroed
`__VactIterCount`, and continues when the NBA phase reports activity. -/
def evalLoop (act : Nat → Nat → Bool) (nba : Nat → Bool) (count : Nat) : EvalOutcome :=
  if 100 < count then ⟨count + 1, [], true⟩
  else
    match regionLoop (act count) 0 with
    | .diverged n => ⟨count + 1, [n], true⟩
    | .converged n =>
      if nba count then
        let rest := evalLoop act nba (count + 1)
        ⟨rest.outerEntries, n :: rest.innerEntries, rest.fatal⟩
      else ⟨count + 1, [n], false⟩
termination_by 101 - count
decreasing_by omega

/-- `Vcounter8___024root___eval`: both iteration counters start at zero. -/
def vcounter8Eval (act : Nat → Nat → Bool) (nba : Nat → Bool) : EvalOutcome :=
  evalLoop act nba 0

/-! ## Part 2 — `src/code/ast_gen.cpp`

The driver builds one command line by string concatenation, hands it to
`std::system` (which runs it through the shell), and on success loads the
emitted XML file with `tinyxml2::XMLDocument::LoadFile`.
-/

/-- Result of `tinyxml2::XMLDocument::LoadFile`: `XML_SUCCESS`, or a nonzero
`XMLError` enum value together with the parser's recorded error line and
column (`ErrorLineNum`; available in the document object, whether or not the
caller reads it). -/
inductive XmlLoadResult where
  | success
  | error (code : Nat) (line : Nat) (col : Nat)
deriving DecidableEq, Repr

/-- The external world the driver interacts with, as oracles:
`sys cmd` is the exit status `std::system` reports for the command line `cmd`;
`load path` is what TinyXML-2 finds at `path`;
`elabStderr` is the diagnostic text the elaborator writes to the (inherited)
standard-error stream;
`fsExists` tells whether a path exists on disk. -/
structure World where
  sys : String → Int
  load : String → XmlLoadResult
  elabStderr : String
  fsExists : String → Bool

/-- An observable effect performed by the driver, in order. -/
inductive Event where
  | shellExec (cmdLine : String)
  | spawnArgv (prog : String) (argv : List String)
  | loadFile (path : String)
  | cerrMsg (msg : String)
deriving DecidableEq, Repr

/-- Is this event a process execution (either through the shell or by direct
argv spawning)? -/
def Event.isProcessExec : Event → Bool
  | .shellExec _ => true
  | .spawnArgv _ _ => true
  | _ => false

/-- Is this event a markup-file load? -/
def Event.isLoadFile : Event → Bool
  | .loadFile _ => true
  | _ => false

/-- The command string built by `runVerilatorAST` (`ast_gen.cpp` lines 9–13):
`cmd = "verilator --xml-only --xml-output " + astXmlFile + " " + verilogFile`
followed by `cmd += " -Wno-fatal"`. -/
def verilatorCmd (verilogFile astXmlFile : String) : String :=
  "verilator --xml-only --xml-output " ++ astXmlFile ++ " " ++ verilogFile ++ " -Wno-fatal"

/-- `runVerilatorAST` (`ast_gen.cpp` lines 5–22): build the command string,
run it with `std::system`; on nonzero status print
`"Verilator failed with exit code <ret>"` to `std::cerr` and return `false`,
otherwise return `true`.  The returned list is the trace of effects. -/
def runVerilatorAST (w : World) (verilogFile astXmlFile : String) : Bool × List Event :=
  let cmd := verilatorCmd verilogFile astXmlFile
  let ret := w.sys cmd
  if ret ≠ 0 then
    (false, [.shellExec cmd,
             .cerrMsg ("Verilator failed with exit code " ++ toString ret)])
  else (true, [.shellExec cmd])

/-- The top-level statements of `ast_gen.cpp` (lines 23–37): call
`runVerilatorAST "design.v" "ast.xml"`; on success `LoadFile "ast.xml"`, and
on a parse error print `"Error: could not load AST XML (error <code>)"` and
return 1; on elaboration failure return 1. -/
def mainSketch (w : World) : Int × List Event :=
  let r := runVerilatorAST w "design.v" "ast.xml"
  if r.1 then
    match w.load "ast.xml" with
    | .success => (0, r.2 ++ [.loadFile "ast.xml"])
    | .error code _ _ =>
      (1, r.2 ++ [.loadFile "ast.xml",
        .cerrMsg ("Error: could not load AST XML (error " ++ toString code ++ ")")])
  else (1, r.2)

/-- POSIX-shell field splitting on unquoted spaces: what the shell spawned by
`std::system` does to the concatenated command string before `exec`.  `acc`
accumulates the current word. -/
def shellWordsAux (acc : List Char) : List Char → List (List Char)
  | [] => if acc = [] then [] else [acc]
  | c :: cs =>
    if c = ' ' then
      if acc = [] then shellWordsAux [] cs else acc :: shellWordsAux [] cs
    else shellWordsAux (acc ++ [c]) cs

/-- The argv the elaborator actually receives when `std::system` runs the
command string: the shell's word split of that string. -/
def shellWords (s : String) : List String :=
  (shellWordsAux [] s.data).map String.mk

/-! ## Part 3 — definitions written from the design document

These follow the specification's wording; they exist to be compared with (or
to stand in for) code, as indicated on each one.
-/

/-- The specification's error taxonomy (§7). -/
inductive ErrorKind where
  | InvalidConfig
  | SpawnFailed
  | ElaboratorError (stderrText : String)
  | ElaboratorCrashed (exitCode : Int)
  | TimedOut
  | Cancelled
  | IoError
  | MalformedMarkup (line : Nat) (col : Nat)
  | SchemaMismatch
  | DuplicateId
  | DanglingReference
deriving DecidableEq, Repr

/-- Written from the spec's words (§4.1), for comparison with the source:
ArgumentBuilder's output — element 0 the elaborator executable name, then
`--xml-only`, `--xml-output <output_path>`, then `-Wno-fatal` when
`suppress_fatal_warnings`, then `extra_flags` in order, then `source_path` as
the final positional argument. -/
def specArgv (source_path output_path : String) (suppress_fatal_warnings : Bool)
    (extra_flags : List String) : List String :=
  ["verilator", "--xml-only", "--xml-output", output_path] ++
  (if suppress_fatal_warnings then ["-Wno-fatal"] else []) ++
  extra_flags ++ [source_path]

/-- Split a character list at a separator, dropping empty fields. -/
def splitSep (sep : Char) (acc : List Char) : List Char → List (List Char)
  | [] => if acc = [] then [] else [acc]
  | c :: cs =>
    if c = sep then
      if acc = [] then splitSep sep [] cs else acc :: splitSep sep [] cs
    else splitSep sep (acc ++ [c]) cs

/-- Does `l` begin with `pat`? -/
def beginsWith : List Char → List Char → Bool
  | [], _ => true
  | _ :: _, [] => false
  | p :: ps, c :: cs => p = c && beginsWith ps cs

/-- Written from the spec's words (§4.5): `stderr` "contains
schema-identifiable error lines" — some line starts with the elaborator's
`%Error` marker. -/
def hasIdentifiableErrors (stderrText : String) : Bool :=
  (splitSep '\x0a' [] stderrText.data).any (fun ln => beginsWith "%Error".data ln)

/-- Written from the spec's words (§4.5), for comparison with the source: the
classification of a non-zero elaborator exit — `ElaboratorError` with the
captured stderr when it contains schema-identifiable error lines, otherwise
`ElaboratorCrashed` with the exit code. -/
def specClassify (exitCode : Int) (stderrText : String) : ErrorKind :=
  if hasIdentifiableErrors stderrText then .ElaboratorError stderrText
  else .ElaboratorCrashed exitCode

/-! ## Part 4 — DesignTreeBuilder, modelled from the spec

Modelled from the spec: no source under `src/` builds a typed design tree
(`ast_gen.cpp` stops after `LoadFile`), so the `DesignTreeBuilder` stage is
modelled from §4.4 of the design document: recognize `module` / `port` /
`instance` elements under the `netlist` root, take ids from an `id` or `name`
attribute (minting deterministic path-based synthetic ids otherwise), abort on
duplicate ids, and resolve every cross-reference against the by-id table.
-/

/-- A generic markup element (§3 `MarkupNode`): tag, attributes, children. -/
inductive MarkupNode where
  | elem (tag : String) (attrs : List (String × String)) (children : List MarkupNode)

/-- The tag of a markup element. -/
def MarkupNode.tag : MarkupNode → String
  | .elem t _ _ => t

/-- The attribute list of a markup element. -/
def MarkupNode.attrs : MarkupNode → List (String × String)
  | .elem _ a _ => a

/-- The child list of a markup element. -/
def MarkupNode.children : MarkupNode → List MarkupNode
  | .elem _ _ c => c

/-- A typed design-tree node (§3): a `Module` with the ids of its ports and
instances, a `Port` with its parent module's id, or an `Instance` with its
`defName` cross-reference. -/
inductive DNode where
  | moduleNode (ports : List String) (insts : List String)
  | portNode (parentModule : String)
  | instNode (defName : String)
deriving DecidableEq, Repr

/-- The typed output (§3 `DesignTree`): the by-id lookup table, covering every
node. -/
structure DesignTree where
  table : List (String × DNode)
deriving DecidableEq, Repr

/-- Natural id of an element (§4.4 step 3): the `id` attribute, else `name`. -/
def attrId (attrs : List (String × String)) : Option String :=
  match List.lookup "id" attrs with
  | some v => some v
  | none => List.lookup "name" attrs

/-- Deterministic synthetic id minted from the path from the root (§4.4 step
3), e.g. `/netlist/module[2]/port[0]`. -/
def synthId (parentPath tag : String) (idx : Nat) : String :=
  parentPath ++ "/" ++ tag ++ "[" ++ toString idx ++ "]"

/-- Id of an element: natural when present, otherwise synthetic. -/
def nodeId (parentPath tag : String) (idx : Nat) (attrs : List (String × String)) : String :=
  (attrId attrs).getD (synthId parentPath tag idx)

/-- The children of `n` with the given tag, each with its position among those
children. -/
def childrenTagged (tag : String) (n : MarkupNode) : List (Nat × MarkupNode) :=
  (n.children.filter (fun c => c.tag == tag)).enum

/-- Ids of the ports of module `m`, whose path from the root is `mpath`. -/
def portIdsOf (mpath : String) (m : MarkupNode) : List String :=
  (childrenTagged "port" m).map (fun p => nodeId mpath "port" p.1 p.2.attrs)

/-- Ids of the instances of module `m`. -/
def instIdsOf (mpath : String) (m : MarkupNode) : List String :=
  (childrenTagged "instance" m).map (fun p => nodeId mpath "instance" p.1 p.2.attrs)

/-- By-id entries for the ports of module `m` whose id is `mid`: each port is
recorded with its parent module. -/
def portEntriesOf (mpath mid : String) (m : MarkupNode) : List (String × DNode) :=
  (childrenTagged "port" m).map
    (fun p => (nodeId mpath "port" p.1 p.2.attrs, DNode.portNode mid))

/-- By-id entries for the instances of module `m`: each instance carries its
`defName` cross-reference (§6: `instance` has `defName` referencing a
module). -/
def instEntriesOf (mpath : String) (m : MarkupNode) : List (String × DNode) :=
  (childrenTagged "instance" m).map
    (fun p => (nodeId mpath "instance" p.1 p.2.attrs,
               DNode.instNode ((List.lookup "defName" p.2.attrs).getD "")))

/-- All by-id entries contributed by the `idx`-th module element: the module
itself, then its ports, then its instances. -/
def moduleEntries (im : Nat × MarkupNode) : List (String × DNode) :=
  let mpath := synthId "/netlist" "module" im.1
  let mid := nodeId "/netlist" "module" im.1 im.2.attrs
  (mid, DNode.moduleNode (portIdsOf mpath im.2) (instIdsOf mpath im.2)) ::
    (portEntriesOf mpath mid im.2 ++ instEntriesOf mpath im.2)

/-- The full by-id table of a `netlist` root. -/
def buildTable (root : MarkupNode) : List (String × DNode) :=
  (childrenTagged "module" root).flatMap moduleEntries

/-- The ids present in a by-id table. -/
def tableKeys (t : List (String × DNode)) : List String :=
  t.map Prod.fst

/-- Every cross-reference recorded in the table: each instance's `defName` and
each port's parent-module back-reference. -/
def tableRefs (t : List (String × DNode)) : List String :=
  t.flatMap (fun e =>
    match e.2 with
    | .moduleNode _ _ => []
    | .portNode pm => [pm]
    | .instNode dn => [dn])

/-- Modelled from the spec: the `DesignTreeBuilder` stage (§4.4).  The root
must be tagged `netlist` (else `SchemaMismatch`); duplicate ids abort with
`DuplicateId`; an unresolved cross-reference aborts with
`DanglingReference`. -/
def buildDesignTree (root : MarkupNode) : Except ErrorKind DesignTree :=
  if root.tag == "netlist" then
    let t := buildTable root
    if (tableKeys t).Nodup then
      if (tableRefs t).all (fun r => (tableKeys t).contains r) then .ok ⟨t⟩
      else .error .DanglingReference
    else .error .DuplicateId
  else .error .SchemaMismatch

/-! ### Concrete worlds and documents used as witnesses and counterexamples -/

/-- A world where the elaborator succeeds and the markup parses. -/
def wVerilatorOk : World :=
  { sys := fun _ => 0, load := fun _ => .success, elabStderr := "",
    fsExists := fun _ => true }

/-- A world where the elaborator exits 1 with identifiable `%Error` lines. -/
def wFail1 : World :=
  { sys := fun _ => 1, load := fun _ => .success,
    elabStderr := "%Error: design.v:3: syntax error",
    fsExists := fun _ => true }

/-- A world identical to `wFail1` except that the elaborator's stderr is
empty. -/
def wFail2 : World :=
  { sys := fun _ => 1, load := fun _ => .success, elabStderr := "",
    fsExists := fun _ => true }

/-- A world where no file exists and the elaborator exits 2 complaining about
the missing source. -/
def wNoSource : World :=
  { sys := fun _ => 2, load := fun _ => .success,
    elabStderr := "%Error: Cannot find file containing module: /nonexistent.v",
    fsExists := fun _ => false }

/-- A world where elaboration succeeds but the markup file is malformed; the
parser reports error code 15 at line 3, column 7. -/
def wBadXml1 : World :=
  { sys := fun _ => 0, load := fun _ => .error 15 3 7, elabStderr := "",
    fsExists := fun _ => true }

/-- Like `wBadXml1` but the parse error is at line 9, column 1. -/
def wBadXml2 : World :=
  { sys := fun _ => 0, load := fun _ => .error 15 9 1, elabStderr := "",
    fsExists := fun _ => true }

/-- A small hierarchical netlist document: a `top` module with one port and an
instance of `child`, and a `child` module with one port. -/
def sampleNetlist : MarkupNode :=
  .elem "netlist" []
    [.elem "files" [] [],
     .elem "module" [("name", "top")]
       [.elem "port" [("name", "clk"), ("dir", "input")] [],
        .elem "instance" [("name", "u0"), ("defName", "child")] []],
     .elem "module" [("name", "child")]
       [.elem "port" [("name", "p")] []]]

/-- The design tree the modelled builder produces for `sampleNetlist`. -/
def sampleTree : DesignTree :=
  ⟨[("top", DNode.moduleNode ["clk"] ["u0"]),
    ("clk", DNode.portNode "top"),
    ("u0", DNode.instNode "child"),
    ("child", DNode.moduleNode ["p"] []),
    ("p", DNode.portNode "child")]⟩

/-! ## Theorems -/

theorem regionLoop_entries_le (phase : Nat → Bool) :
    ∀ k count, 101 ≤ count + k → count ≤ 101 →
      (regionLoop phase count).entries ≤ 102 := by
  intro k
  induction k with
  | zero =>
    intro count h1 h2
    have hc : count = 101 := by omega
    subst hc
    rw [regionLoop]
    simp [RegionOutcome.entries]
  | succ k ih =>
    intro count h1 h2
    rw [regionLoop]
    by_cases hgt : 100 < count
    · simp [hgt, RegionOutcome.entries]; omega
    · by_cases hp : phase count = true
      · simp [hgt, hp]
        exact ih (count + 1) (by omega) (by omega)
      · simp [hgt, hp, RegionOutcome.entries]; omega

theorem evalLoop_entries_le (act : Nat → Nat → Bool) (nba : Nat → Bool) :
    ∀ k count, 101 ≤ count + k → count ≤ 101 →
      (evalLoop act nba count).outerEntries ≤ 102 ∧
      ∀ n ∈ (evalLoop act nba count).innerEntries, n ≤ 102 := by
  intro k
  induction k with
  | zero =>
    intro count h1 h2
    have hc : count = 101 := by omega
    subst hc
    rw [evalLoop]
    simp
  | succ k ih =>
    intro count h1 h2
    rw [evalLoop]
    by_cases hgt : 100 < count
    · simp [hgt]; omega
    · simp only [hgt, if_false, if_neg hgt]
      cases hr : regionLoop (act count) 0 with
      | diverged n =>
        have hn : n ≤ 102 := by
          have := regionLoop_entries_le (act count) 102 0 (by omega) (by omega)
          rw [hr] at this; exact this
        simp [hn]; omega
      | converged n =>
        have hn : n ≤ 102 := by
          have := regionLoop_entries_le (act count) 102 0 (by omega) (by omega)
          rw [hr] at this; exact this
        by_cases hb : nba count = true
        · simp only [hb, if_true]
          have hrec := ih (count + 1) (by omega) (by omega)
          refine ⟨hrec.1, ?_⟩
          intro m hm
          simp at hm
          rcases hm with hm | hm
          · omega
          · exact hrec.2 m hm
        · simp [hb, hn]; omega

/-- C10: For every state of the generated counter8 model (every behavior of
the phase oracles), the evaluation function terminates — the model is a total
function — and its outer NBA loop and inner active-region loop each execute
at most 102 body entries, because each pass strictly increments an iteration
counter and a counter exceeding 100 triggers the fatal "did not converge"
abort instead of further looping. -/
theorem counter8_eval_loop_bound (act : Nat → Nat → Bool) (nba : Nat → Bool) :
    (vcounter8Eval act nba).outerEntries ≤ 102 ∧
    (vcounter8Eval act nba).innerEntries.all (fun n => decide (n ≤ 102)) = true := by
  have h := evalLoop_entries_le act nba 102 0 (by omega) (by omega)
  refine ⟨h.1, ?_⟩
  rw [List.all_eq_true]
  intro n hn
  exact decide_eq_true (h.2 n hn)

/-- C9: one execution of the sequential update of the generated counter8
model sets the 8-bit output to `(out + 1) % 256` when `rst_n` is nonzero and
to `0` when `rst_n` is zero; in either case the stored value is below 256
(the source masks the increment with `0xff`). -/
theorem counter8_nba_sequent_spec (s : Vcounter8Root) :
    ((s.rst_n ≠ 0 → (nbaSequentTop0 s).out = (s.out + 1) % 256) ∧
     (s.rst_n = 0 → (nbaSequentTop0 s).out = 0)) ∧
    (nbaSequentTop0 s).out < 256 := by
  have hmask : 0xff &&& (1 + s.out) = (1 + s.out) % 256 := by
    rw [Nat.and_comm]
    have := Nat.and_pow_two_sub_one_eq_mod (1 + s.out) 8
    norm_num at this
    exact this
  by_cases h : s.rst_n = 0
  · simp [nbaSequentTop0, h]
  · have hval : (nbaSequentTop0 s).out = (s.out + 1) % 256 := by
      show (if s.rst_n ≠ 0 then 0xff &&& (1 + s.out) else 0) = (s.out + 1) % 256
      rw [if_pos h, hmask]
      omega
    refine ⟨⟨fun _ => hval, fun hc => absurd hc h⟩, ?_⟩
    rw [hval]
    exact Nat.mod_lt _ (by omega)

theorem counter8_nba_sequent_spec_witness :
    ((Vcounter8Root.mk 0 1 255).rst_n ≠ 0 ∧
      (nbaSequentTop0 ⟨0, 1, 255⟩).out = (255 + 1) % 256) ∧
    ((Vcounter8Root.mk 0 0 7).rst_n = 0 ∧ (nbaSequentTop0 ⟨0, 0, 7⟩).out = 0) :=
  ⟨⟨by decide, (counter8_nba_sequent_spec ⟨0, 1, 255⟩).1.1 (by decide)⟩,
   ⟨by decide, (counter8_nba_sequent_spec ⟨0, 0, 7⟩).1.2 (by decide)⟩⟩

/-- C3: `runVerilatorAST` reports success exactly when the spawned command
exits with status 0 (`ast_gen.cpp` lines 15–21: `ret != 0` prints a
diagnostic and returns `false`, otherwise `true` is returned). -/
theorem runVerilatorAST_succeeds_iff (w : World) (v a : String) :
    (runVerilatorAST w v a).1 = true ↔ w.sys (verilatorCmd v a) = 0 := by
  unfold runVerilatorAST
  by_cases h : w.sys (verilatorCmd v a) = 0 <;> simp [h]

/-- C1 (amended): every process execution the driver performs goes through
the shell (`std::system`) as one concatenated command string — there is
exactly one execution event per stage run and it is a `shellExec` of
`verilatorCmd`, never an argv-vector spawn. -/
theorem astGen_every_exec_via_shell (w : World) (v a : String) :
    ((runVerilatorAST w v a).2.filter Event.isProcessExec) =
      [Event.shellExec (verilatorCmd v a)] ∧
    ((mainSketch w).2.filter Event.isProcessExec) =
      [Event.shellExec (verilatorCmd "design.v" "ast.xml")] := by
  constructor
  · unfold runVerilatorAST
    by_cases h : w.sys (verilatorCmd v a) = 0 <;> simp [h, Event.isProcessExec]
  · unfold mainSketch runVerilatorAST
    by_cases h : w.sys (verilatorCmd "design.v" "ast.xml") = 0
    · simp only [h]
      cases w.load "ast.xml" <;> simp [Event.isProcessExec]
    · simp [h, Event.isProcessExec]

/-- C1 counterexample: the driver does invoke a shell — the trace of a
successful run contains a `shellExec` of the single concatenated command
string (so the arguments are not passed as distinct tokens). -/
theorem astGen_shell_exec_cex :
    Event.shellExec "verilator --xml-only --xml-output ast.xml design.v -Wno-fatal"
      ∈ (mainSketch wVerilatorOk).2 ∧
    (mainSketch wVerilatorOk).2.any (fun e =>
      match e with
      | Event.spawnArgv _ _ => true
      | _ => false) = false := by decide

/-- C7 (amended): there is no pre-flight existence check — the driver spawns
the elaborator via the shell on every run, whatever `fsExists` says, and its
behavior is independent of the filesystem-existence oracle; a missing source
can only surface as the elaborator's own non-zero exit. -/
theorem astGen_no_existence_precheck (w : World) (v a : String) :
    Event.shellExec (verilatorCmd v a) ∈ (runVerilatorAST w v a).2 ∧
    runVerilatorAST { w with fsExists := fun _ => false } v a =
      runVerilatorAST w v a := by
  unfold runVerilatorAST
  by_cases h : w.sys (verilatorCmd v a) = 0 <;> simp [h]

/-- C7 counterexample: with `source_path = "/nonexistent.v"` (the world's
existence oracle denies it), the pipeline still spawns a child — the claim's
`InvalidConfig`-before-spawn behavior is absent; the run fails only through
the elaborator's exit code. -/
theorem astGen_spawns_without_source_cex :
    wNoSource.fsExists "/nonexistent.v" = false ∧
    Event.shellExec (verilatorCmd "/nonexistent.v" "ast.xml")
      ∈ (runVerilatorAST wNoSource "/nonexistent.v" "ast.xml").2 ∧
    (runVerilatorAST wNoSource "/nonexistent.v" "ast.xml").1 = false := by decide

/-- C4 (amended): a non-zero elaborator exit is handled uniformly — the
driver prints `"Verilator failed with exit code <ret>"` and returns `false`,
and its result is independent of whatever the elaborator wrote to stderr; no
`ElaboratorError` / `ElaboratorCrashed` classification exists in the code. -/
theorem astGen_uniform_failure_report (w : World) (v a s : String)
    (h : w.sys (verilatorCmd v a) ≠ 0) :
    runVerilatorAST w v a =
      (false, [Event.shellExec (verilatorCmd v a),
               Event.cerrMsg ("Verilator failed with exit code " ++
                 toString (w.sys (verilatorCmd v a)))]) ∧
    runVerilatorAST { w with elabStderr := s } v a = runVerilatorAST w v a := by
  unfold runVerilatorAST
  simp [h]

theorem astGen_uniform_failure_report_witness :
    wFail1.sys (verilatorCmd "design.v" "ast.xml") ≠ 0 ∧
    (runVerilatorAST wFail1 "design.v" "ast.xml" =
      (false, [Event.shellExec (verilatorCmd "design.v" "ast.xml"),
               Event.cerrMsg ("Verilator failed with exit code " ++
                 toString (wFail1.sys (verilatorCmd "design.v" "ast.xml")))]) ∧
     runVerilatorAST { wFail1 with elabStderr := "" } "design.v" "ast.xml" =
       runVerilatorAST wFail1 "design.v" "ast.xml") :=
  ⟨by decide, astGen_uniform_failure_report wFail1 "design.v" "ast.xml" "" (by decide)⟩

/-- C4 counterexample: two runs with elaborator exit code 1, one whose stderr
carries a schema-identifiable `%Error` line and one with empty stderr, produce
identical driver behavior — yet the claim requires them to be classified
differently (`ElaboratorError` with the captured stderr versus
`ElaboratorCrashed`), as the spec-side classifier shows. -/
theorem astGen_no_classification_cex :
    wFail1.elabStderr ≠ wFail2.elabStderr ∧
    runVerilatorAST wFail1 "design.v" "ast.xml" =
      runVerilatorAST wFail2 "design.v" "ast.xml" ∧
    specClassify 1 wFail1.elabStderr ≠ specClassify 1 wFail2.elabStderr := by decide

/-- C6: the stages run in strict order and short-circuit — when elaboration
fails the driver returns 1 without any markup-load event, and when it
succeeds the trace starts with the shell spawn followed by the markup load
(so loading happens only after elaboration succeeded). -/
theorem pipeline_stage_order (w : World) :
    (w.sys (verilatorCmd "design.v" "ast.xml") ≠ 0 →
      (mainSketch w).1 = 1 ∧ (mainSketch w).2.filter Event.isLoadFile = []) ∧
    (w.sys (verilatorCmd "design.v" "ast.xml") = 0 →
      (mainSketch w).2.take 2 =
        [Event.shellExec (verilatorCmd "design.v" "ast.xml"),
         Event.loadFile "ast.xml"]) := by
  unfold mainSketch runVerilatorAST
  by_cases h : w.sys (verilatorCmd "design.v" "ast.xml") = 0
  · refine ⟨fun hc => absurd h hc, fun _ => ?_⟩
    simp only [h]
    cases w.load "ast.xml" <;> simp
  · refine ⟨fun _ => ?_, fun hc => absurd hc h⟩
    simp [h, Event.isLoadFile]

theorem pipeline_stage_order_witness :
    ((mainSketch wFail1).1 = 1 ∧
      (mainSketch wFail1).2.filter Event.isLoadFile = []) ∧
    (mainSketch wVerilatorOk).2.take 2 =
      [Event.shellExec (verilatorCmd "design.v" "ast.xml"),
       Event.loadFile "ast.xml"] :=
  ⟨(pipeline_stage_order wFail1).1 (by decide),
   (pipeline_stage_order wVerilatorOk).2 (by decide)⟩

/-- C8 (amended): when the emitted markup file fails to parse, the driver
prints `"Error: could not load AST XML (error <code>)"` — carrying only the
TinyXML-2 error-code enum, not the parser's line and column — and returns 1;
no design tree is produced (the trace holds no further event). -/
theorem astGen_parse_error_report (w : World) (code line col : Nat)
    (h0 : w.sys (verilatorCmd "design.v" "ast.xml") = 0)
    (h1 : w.load "ast.xml" = .error code line col) :
    mainSketch w =
      (1, [Event.shellExec (verilatorCmd "design.v" "ast.xml"),
           Event.loadFile "ast.xml",
           Event.cerrMsg ("Error: could not load AST XML (error " ++
             toString code ++ ")")]) := by
  unfold mainSketch runVerilatorAST
  simp [h0, h1]

theorem astGen_parse_error_report_witness :
    wBadXml1.sys (verilatorCmd "design.v" "ast.xml") = 0 ∧
    wBadXml1.load "ast.xml" = .error 15 3 7 ∧
    mainSketch wBadXml1 =
      (1, [Event.shellExec (verilatorCmd "design.v" "ast.xml"),
           Event.loadFile "ast.xml",
           Event.cerrMsg ("Error: could not load AST XML (error " ++
             toString 15 ++ ")")]) :=
  ⟨by decide, by decide,
   astGen_parse_error_report wBadXml1 15 3 7 (by decide) (by decide)⟩

/-- C8 counterexample: two runs whose markup parse errors differ only in the
parser's recorded line and column produce identical driver output — the
failure carries no line/column, contradicting the claim. -/
theorem astGen_parse_error_no_location_cex :
    wBadXml1.load "ast.xml" ≠ wBadXml2.load "ast.xml" ∧
    mainSketch wBadXml1 = mainSketch wBadXml2 := by decide

theorem shellWordsAux_nil_eq (acc : List Char) :
    shellWordsAux acc [] = if acc = [] then [] else [acc] := rfl

theorem shellWordsAux_cons_eq (acc : List Char) (c : Char) (cs : List Char) :
    shellWordsAux acc (c :: cs) =
      if c = ' ' then
        (if acc = [] then shellWordsAux [] cs else acc :: shellWordsAux [] cs)
      else shellWordsAux (acc ++ [c]) cs := rfl

theorem shellWordsAux_token (word : List Char) :
    ∀ (acc rest : List Char), (∀ c ∈ word, c ≠ ' ') → acc ++ word ≠ [] →
      shellWordsAux acc (word ++ ' ' :: rest) = (acc ++ word) :: shellWordsAux [] rest := by
  induction word with
  | nil =>
    intro acc rest _ hne
    simp only [List.nil_append, List.append_nil] at hne ⊢
    rw [shellWordsAux_cons_eq, if_pos rfl, if_neg hne]
  | cons c w ih =>
    intro acc rest hw hne
    have hc : c ≠ ' ' := hw c (List.mem_cons_self c w)
    show shellWordsAux acc (c :: (w ++ ' ' :: rest)) = (acc ++ c :: w) :: shellWordsAux [] rest
    rw [shellWordsAux_cons_eq, if_neg hc]
    have hstep := ih (acc ++ [c]) rest (fun d hd => hw d (List.mem_cons_of_mem c hd)) (by simp)
    rw [hstep]
    simp

theorem shellWordsAux_last (word : List Char) :
    ∀ acc : List Char, (∀ c ∈ word, c ≠ ' ') → acc ++ word ≠ [] →
      shellWordsAux acc word = [acc ++ word] := by
  induction word with
  | nil =>
    intro acc _ hne
    simp only [List.append_nil] at hne ⊢
    rw [shellWordsAux_nil_eq, if_neg hne]
  | cons c w ih =>
    intro acc hw _
    have hc : c ≠ ' ' := hw c (List.mem_cons_self c w)
    show shellWordsAux acc (c :: w) = (acc ++ c :: w) :: []
    rw [shellWordsAux_cons_eq, if_neg hc]
    have hstep := ih (acc ++ [c]) (fun d hd => hw d (List.mem_cons_of_mem c hd)) (by simp)
    rw [hstep]
    simp

/-- C2 (amended): the token sequence the shell passes to the elaborator is
ordered executable name, `--xml-only`, `--xml-output`, output path, then the
source path, and `-Wno-fatal` unconditionally last — the source path is not
the final argument and there is no conditional or extra-flag position
(assuming paths free of spaces, which the shell would otherwise split
further). -/
theorem astGen_shell_token_order (v a : String)
    (hv : v.data ≠ []) (ha : a.data ≠ [])
    (hvs : ∀ c ∈ v.data, c ≠ ' ') (has2 : ∀ c ∈ a.data, c ≠ ' ') :
    shellWords (verilatorCmd v a) =
      ["verilator", "--xml-only", "--xml-output", a, v, "-Wno-fatal"] := by
  have hmk : ∀ s : String, String.mk s.data = s := fun s => rfl
  unfold shellWords verilatorCmd
  rw [String.data_append, String.data_append, String.data_append, String.data_append]
  have hsplit :
      ("verilator --xml-only --xml-output ".data ++ a.data ++ " ".data ++ v.data ++
        " -Wno-fatal".data) =
      "verilator".data ++ ' ' :: ("--xml-only".data ++ ' ' :: ("--xml-output".data ++ ' ' ::
        (a.data ++ ' ' :: (v.data ++ ' ' :: "-Wno-fatal".data)))) := by
    simp
  rw [hsplit]
  rw [shellWordsAux_token _ _ _ (by decide) (by decide)]
  rw [shellWordsAux_token _ _ _ (by decide) (by decide)]
  rw [shellWordsAux_token _ _ _ (by decide) (by decide)]
  rw [shellWordsAux_token _ _ _ has2 (by simpa using ha)]
  rw [shellWordsAux_token _ _ _ hvs (by simpa using hv)]
  rw [shellWordsAux_last _ _ (by decide) (by decide)]
  simp [hmk]

theorem astGen_shell_token_order_witness :
    ("design.v".data ≠ [] ∧ "ast.xml".data ≠ [] ∧
     (∀ c ∈ "design.v".data, c ≠ ' ') ∧ (∀ c ∈ "ast.xml".data, c ≠ ' ')) ∧
    shellWords (verilatorCmd "design.v" "ast.xml") =
      ["verilator", "--xml-only", "--xml-output", "ast.xml", "design.v", "-Wno-fatal"] :=
  ⟨⟨by decide, by decide, by decide, by decide⟩,
   astGen_shell_token_order "design.v" "ast.xml" (by decide) (by decide)
     (by decide) (by decide)⟩

/-- C2 counterexample: for the configuration the driver actually runs
(output `ast.xml`, source `design.v`, warnings suppressed, no extra flags),
the tokens the elaborator receives differ from the claimed order — the
source path is not the final positional argument, `-Wno-fatal` is. -/
theorem astGen_argv_order_cex :
    shellWords (verilatorCmd "design.v" "ast.xml") ≠
      specArgv "design.v" "ast.xml" true [] := by decide

theorem nodupKeys_mem_eq {t : List (String × DNode)} (h : (tableKeys t).Nodup)
    {k : String} {a b : DNode} (ha : (k, a) ∈ t) (hb : (k, b) ∈ t) : a = b := by
  induction t with
  | nil => cases ha
  | cons e t ih =>
    have hnd : e.1 ∉ tableKeys t ∧ (tableKeys t).Nodup := by
      simpa [tableKeys] using h
    rcases List.mem_cons.mp ha with ha1 | ha1 <;> rcases List.mem_cons.mp hb with hb1 | hb1
    · exact congrArg Prod.snd (ha1.trans hb1.symm)
    · exfalso
      apply hnd.1
      have he : e.1 = k := by rw [← ha1]
      rw [he]
      exact List.mem_map_of_mem Prod.fst hb1
    · exfalso
      apply hnd.1
      have he : e.1 = k := by rw [← hb1]
      rw [he]
      exact List.mem_map_of_mem Prod.fst ha1
    · exact ih hnd.2 ha1 hb1

theorem mem_moduleEntries_module {im : Nat × MarkupNode} {k : String}
    {ps pi : List String}
    (h : (k, DNode.moduleNode ps pi) ∈ moduleEntries im) :
    k = nodeId "/netlist" "module" im.1 im.2.attrs ∧
    ps = portIdsOf (synthId "/netlist" "module" im.1) im.2 ∧
    pi = instIdsOf (synthId "/netlist" "module" im.1) im.2 := by
  simp only [moduleEntries] at h
  rcases List.mem_cons.mp h with h1 | h1
  · have hk := congrArg Prod.fst h1
    have hv := congrArg Prod.snd h1
    simp only at hk hv
    injection hv with hps hpi
    exact ⟨hk, hps, hpi⟩
  · exfalso
    rcases List.mem_append.mp h1 with h2 | h2
    · rcases List.mem_map.mp h2 with ⟨p, _, hp⟩
      have := congrArg Prod.snd hp
      simp only at this
      cases this
    · rcases List.mem_map.mp h2 with ⟨p, _, hp⟩
      have := congrArg Prod.snd hp
      simp only at this
      cases this

theorem mem_moduleEntries_port {im : Nat × MarkupNode} {pid mid : String}
    (h : (pid, DNode.portNode mid) ∈ moduleEntries im) :
    mid = nodeId "/netlist" "module" im.1 im.2.attrs ∧
    pid ∈ portIdsOf (synthId "/netlist" "module" im.1) im.2 := by
  simp only [moduleEntries] at h
  rcases List.mem_cons.mp h with h1 | h1
  · exfalso
    have := congrArg Prod.snd h1
    simp only at this
    cases this
  · rcases List.mem_append.mp h1 with h2 | h2
    · rcases List.mem_map.mp h2 with ⟨p, hpmem, hp⟩
      have h1' := congrArg Prod.fst hp
      have h2' := congrArg Prod.snd hp
      simp only at h1' h2'
      injection h2' with hmid
      refine ⟨hmid.symm, ?_⟩
      rw [← h1']
      exact List.mem_map.mpr ⟨p, hpmem, rfl⟩
    · exfalso
      rcases List.mem_map.mp h2 with ⟨p, _, hp⟩
      have := congrArg Prod.snd hp
      simp only at this
      cases this

theorem portIds_entry {mpath mid : String} {m : MarkupNode} {pid : String}
    (h : pid ∈ portIdsOf mpath m) :
    (pid, DNode.portNode mid) ∈ portEntriesOf mpath mid m := by
  simp only [portIdsOf] at h
  rcases List.mem_map.mp h with ⟨p, hpmem, hid⟩
  exact List.mem_map.mpr ⟨p, hpmem, by rw [hid]⟩

theorem buildTable_module_port_entry {root : MarkupNode} {k : String}
    {ps pi : List String}
    (h : (k, DNode.moduleNode ps pi) ∈ buildTable root)
    {pid : String} (hpid : pid ∈ ps) :
    (pid, DNode.portNode k) ∈ buildTable root := by
  rcases List.mem_flatMap.mp h with ⟨im, him, hmem⟩
  obtain ⟨hk, hps, _⟩ := mem_moduleEntries_module hmem
  refine List.mem_flatMap.mpr ⟨im, him, ?_⟩
  simp only [moduleEntries]
  apply List.mem_cons_of_mem
  apply List.mem_append_left
  rw [hk]
  exact portIds_entry (hps ▸ hpid)

theorem buildTable_port_parent {root : MarkupNode} {pid mid : String}
    (h : (pid, DNode.portNode mid) ∈ buildTable root) :
    ∃ ps pi, (mid, DNode.moduleNode ps pi) ∈ buildTable root ∧ pid ∈ ps := by
  rcases List.mem_flatMap.mp h with ⟨im, him, hmem⟩
  obtain ⟨hmid, hpid⟩ := mem_moduleEntries_port hmem
  refine ⟨portIdsOf (synthId "/netlist" "module" im.1) im.2,
          instIdsOf (synthId "/netlist" "module" im.1) im.2,
          List.mem_flatMap.mpr ⟨im, him, ?_⟩, hpid⟩
  simp only [moduleEntries]
  rw [hmid]
  exact List.mem_cons_self _ _

theorem buildDesignTree_ok {root : MarkupNode} {t : DesignTree}
    (h : buildDesignTree root = .ok t) :
    t.table = buildTable root ∧ (tableKeys t.table).Nodup ∧
    ∀ r ∈ tableRefs t.table, r ∈ tableKeys t.table := by
  unfold buildDesignTree at h
  by_cases h1 : root.tag == "netlist"
  · rw [if_pos h1] at h
    by_cases h2 : (tableKeys (buildTable root)).Nodup
    · rw [if_pos h2] at h
      by_cases h3 : (tableRefs (buildTable root)).all
          (fun r => (tableKeys (buildTable root)).contains r) = true
      · rw [if_pos h3] at h
        injection h with h
        subst h
        refine ⟨rfl, h2, ?_⟩
        intro r hr
        have := List.all_eq_true.mp h3 r hr
        simpa using this
      · rw [if_neg h3] at h
        cases h
    · rw [if_neg h2] at h
      cases h
  · rw [if_neg h1] at h
    cases h

/-- C5: on every markup tree the modelled builder accepts, the produced
design tree satisfies the claimed invariants — every id in the by-id table is
unique, every cross-reference (an instance's `defName`, a port's parent
back-reference) resolves to an existing id, and every port node has exactly
one parent module.  (Modelled from the spec: no source under `src/`
implements the `DesignTreeBuilder`; `buildDesignTree` follows §4.4.) -/
theorem designTree_invariants (root : MarkupNode) (t : DesignTree)
    (h : buildDesignTree root = .ok t) :
    (tableKeys t.table).Nodup ∧
    (∀ r ∈ tableRefs t.table, r ∈ tableKeys t.table) ∧
    (∀ pid mid, (pid, DNode.portNode mid) ∈ t.table →
      ∃! m : String, ∃ ps pi, (m, DNode.moduleNode ps pi) ∈ t.table ∧ pid ∈ ps) := by
  obtain ⟨ht, hnd, href⟩ := buildDesignTree_ok h
  refine ⟨hnd, href, ?_⟩
  intro pid mid hmem
  rw [ht] at hmem
  obtain ⟨ps, pi, hmod, hpid⟩ := buildTable_port_parent hmem
  refine ⟨mid, ⟨ps, pi, ht.symm ▸ hmod, hpid⟩, ?_⟩
  intro y hy
  obtain ⟨ps', pi', hmod', hpid'⟩ := hy
  rw [ht] at hmod'
  have h1 : (pid, DNode.portNode y) ∈ buildTable root :=
    buildTable_module_port_entry hmod' hpid'
  have hnd' : (tableKeys (buildTable root)).Nodup := ht ▸ hnd
  have h2 := nodupKeys_mem_eq hnd' h1 hmem
  injection h2

theorem designTree_invariants_witness :
    buildDesignTree sampleNetlist = .ok sampleTree ∧
    ((tableKeys sampleTree.table).Nodup ∧
     (∀ r ∈ tableRefs sampleTree.table, r ∈ tableKeys sampleTree.table) ∧
     (∀ pid mid, (pid, DNode.portNode mid) ∈ sampleTree.table →
       ∃! m : String, ∃ ps pi,
         (m, DNode.moduleNode ps pi) ∈ sampleTree.table ∧ pid ∈ ps)) :=
  ⟨rfl, designTree_invariants sampleNetlist sampleTree rfl⟩
